import Mathlib

/-!
Verification of the AI-Plays-Tag trainer (src/trainer/server.py, src/trainer/ppo.py)
against its natural-language specification.

Python floats are modelled as rationals (`ℚ`); where the code's behaviour on
non-finite floats matters (the instability rollback check), floats are modelled
by the inductive `FloatVal` with Python comparison semantics.  Neural-network
evaluation (the function approximator) is out of the specification's scope and
is passed in as an explicit function argument where the surrounding control
flow needs its results.
-/

namespace TagTrainer

/-- Embedding of `Trainer._role_from_obs` (server.py lines 473-476):
`if len(obs) > 8 and float(obs[8]) >= 0.5: return "seeker"` else `"hider"`.
The short-circuit `and` is modelled by the dependent if on the length. -/
def roleFromObs (obs : List ℚ) : String :=
  if h : 8 < obs.length then
    if obs.get ⟨8, h⟩ ≥ 1/2 then "seeker" else "hider"
  else "hider"

/-- Claim C7: for every observation containing the flag feature (index 8),
role routing returns "seeker" exactly when that feature is ≥ 0.5 and "hider"
otherwise, regardless of all other feature values. -/
theorem claim_C7_role_routing (obs : List ℚ) (h : 8 < obs.length) :
    (roleFromObs obs = "seeker" ↔ obs.get ⟨8, h⟩ ≥ 1/2) ∧
    (roleFromObs obs = "hider" ↔ ¬ (obs.get ⟨8, h⟩ ≥ 1/2)) := by
  rw [roleFromObs, dif_pos h]
  by_cases hq : obs.get ⟨8, h⟩ ≥ 1/2 <;> simp [hq]

/-- Witness for C7 at a concrete 9-element observation with flag value 1. -/
theorem claim_C7_role_routing_witness :
    roleFromObs [0, 0, 0, 0, 0, 0, 0, 0, 1] = "seeker" :=
  (claim_C7_role_routing [0, 0, 0, 0, 0, 0, 0, 0, 1] (by decide)).1.mpr (by norm_num)

/-- Claim C9: for every observation of length at most 8 the router returns
"hider"; the guard on the length means no out-of-bounds access occurs and the
short observation is not treated as an error. -/
theorem claim_C9_short_obs_hider (obs : List ℚ) (h : obs.length ≤ 8) :
    roleFromObs obs = "hider" := by
  rw [roleFromObs, dif_neg (by omega)]

/-- Witness for C9 at the empty observation. -/
theorem claim_C9_short_obs_hider_witness : roleFromObs [] = "hider" :=
  claim_C9_short_obs_hider [] (by decide)

/-- Mask used by the GAE loop (server.py line 536): `mask = 0.0 if done[t] else 1.0`. -/
def maskOf (d : Bool) : ℚ := if d then 0 else 1

/-- Embedding of the backwards GAE loop of `Trainer._update_role`
(server.py lines 533-539).  The Python loop runs `t` from the last index to
the first with accumulator `gae` starting at 0; after processing index `t+1`
the accumulator holds `adv[t+1]`, so the recursion below computes the same
array: `adv[t] = delta[t] + gamma * lam * mask[t] * adv[t+1]` with
`delta[t] = rew[t] + gamma * next_values[t] * mask[t] - values[t]` and the
advantage after the last index taken as 0 (`headD 0` of the empty tail). -/
def computeAdv (gamma lam : ℚ) : List ℚ → List ℚ → List ℚ → List Bool → List ℚ
  | r :: rs, v :: vs, nv :: nvs, d :: ds =>
    let rest := computeAdv gamma lam rs vs nvs ds
    ((r + gamma * nv * maskOf d - v) + gamma * lam * maskOf d * rest.headD 0) :: rest
  | _, _, _, _ => []

/-- Embedding of `returns = adv + values` (server.py line 540). -/
def computeReturns (gamma lam : ℚ) (rew vals nvals : List ℚ) (dns : List Bool) : List ℚ :=
  List.zipWith (· + ·) (computeAdv gamma lam rew vals nvals dns) vals

lemma computeAdv_nil (gamma lam : ℚ) : computeAdv gamma lam [] [] [] [] = [] := rfl

lemma computeAdv_cons (gamma lam r v nv : ℚ) (d : Bool)
    (rs vs nvs : List ℚ) (ds : List Bool) :
    computeAdv gamma lam (r :: rs) (v :: vs) (nv :: nvs) (d :: ds) =
      ((r + gamma * nv * maskOf d - v) +
        gamma * lam * maskOf d * (computeAdv gamma lam rs vs nvs ds).headD 0) ::
      computeAdv gamma lam rs vs nvs ds := rfl

lemma computeAdv_length (gamma lam : ℚ) :
    ∀ (rs vs nvs : List ℚ) (ds : List Bool),
      vs.length = rs.length → nvs.length = rs.length → ds.length = rs.length →
      (computeAdv gamma lam rs vs nvs ds).length = rs.length
  | [], [], [], [], _, _, _ => rfl
  | [], _ :: _, _, _, h1, _, _ => by simp at h1
  | [], [], _ :: _, _, _, h2, _ => by simp at h2
  | [], [], [], _ :: _, _, _, h3 => by simp at h3
  | _ :: _, [], _, _, h1, _, _ => by simp at h1
  | _ :: _, _ :: _, [], _, _, h2, _ => by simp at h2
  | _ :: _, _ :: _, _ :: _, [], _, _, h3 => by simp at h3
  | r :: rs, v :: vs, nv :: nvs, d :: ds, h1, h2, h3 => by
    rw [computeAdv_cons]
    simp only [List.length_cons] at h1 h2 h3 ⊢
    rw [computeAdv_length gamma lam rs vs nvs ds (by omega) (by omega) (by omega)]

lemma getD_zero_eq_headD (l : List ℚ) : l.getD 0 0 = l.headD 0 := by
  cases l <;> rfl

lemma zipWith_add_getD (xs ys : List ℚ) (t : ℕ)
    (hx : t < xs.length) (hy : t < ys.length) :
    (List.zipWith (· + ·) xs ys).getD t 0 = xs.getD t 0 + ys.getD t 0 := by
  induction xs generalizing ys t with
  | nil => simp at hx
  | cons x xs ih =>
    cases ys with
    | nil => simp at hy
    | cons y ys =>
      cases t with
      | zero => rfl
      | succ n =>
        simp only [List.zipWith_cons_cons, List.getD_cons_succ]
        exact ih ys n (by simpa using hx) (by simpa using hy)

lemma computeAdv_getD (gamma lam : ℚ) :
    ∀ (rs vs nvs : List ℚ) (ds : List Bool) (t : ℕ),
      vs.length = rs.length → nvs.length = rs.length → ds.length = rs.length →
      t < rs.length →
      (computeAdv gamma lam rs vs nvs ds).getD t 0 =
        (rs.getD t 0 + gamma * nvs.getD t 0 * maskOf (ds.getD t false) - vs.getD t 0) +
          gamma * lam * maskOf (ds.getD t false) *
            (computeAdv gamma lam rs vs nvs ds).getD (t + 1) 0
  | [], _, _, _, _, _, _, _, ht => by simp at ht
  | _ :: _, [], _, _, _, h1, _, _, _ => by simp at h1
  | _ :: _, _ :: _, [], _, _, _, h2, _, _ => by simp at h2
  | _ :: _, _ :: _, _ :: _, [], _, _, _, h3, _ => by simp at h3
  | r :: rs, v :: vs, nv :: nvs, d :: ds, 0, h1, h2, h3, ht => by
    rw [computeAdv_cons]
    simp only [List.getD_cons_zero, List.getD_cons_succ, getD_zero_eq_headD]
  | r :: rs, v :: vs, nv :: nvs, d :: ds, n + 1, h1, h2, h3, ht => by
    rw [computeAdv_cons]
    simp only [List.getD_cons_succ]
    simp only [List.length_cons] at h1 h2 h3 ht
    exact computeAdv_getD gamma lam rs vs nvs ds n
      (by omega) (by omega) (by omega) (by omega)

/-- Claim C3: the advantage computation satisfies the backwards GAE recursion
(with the advantage after the last index equal to 0, which the out-of-range
`getD` default provides at `t + 1 = length`), returns are advantages plus
values, a single-step done episode has advantage `reward - value`, and a
two-step episode with `gamma = lam = 1`, done only at `t = 1`, and the
episode-consistent bootstrap `nextValue[0] = value[1]` has
`advantage[0] = reward[0] + reward[1] - value[0]`. -/
theorem claim_C3_gae (gamma lam : ℚ) (rew vals nvals : List ℚ) (dns : List Bool)
    (h1 : vals.length = rew.length) (h2 : nvals.length = rew.length)
    (h3 : dns.length = rew.length) :
    (∀ t, t < rew.length →
      (computeAdv gamma lam rew vals nvals dns).getD t 0 =
        (rew.getD t 0 + gamma * nvals.getD t 0 * maskOf (dns.getD t false) -
            vals.getD t 0) +
          gamma * lam * maskOf (dns.getD t false) *
            (computeAdv gamma lam rew vals nvals dns).getD (t + 1) 0 ∧
      (computeReturns gamma lam rew vals nvals dns).getD t 0 =
        (computeAdv gamma lam rew vals nvals dns).getD t 0 + vals.getD t 0) ∧
    (∀ r v nv, computeAdv gamma lam [r] [v] [nv] [true] = [r - v]) ∧
    (∀ r0 r1 v0 v1 nv0 nv1 : ℚ, nv0 = v1 →
      (computeAdv 1 1 [r0, r1] [v0, v1] [nv0, nv1] [false, true]).headD 0 =
        r0 + r1 - v0) := by
  refine ⟨fun t ht => ⟨computeAdv_getD gamma lam rew vals nvals dns t h1 h2 h3 ht, ?_⟩,
    fun r v nv => ?_, fun r0 r1 v0 v1 nv0 nv1 hnv => ?_⟩
  · exact zipWith_add_getD _ _ t
      (by rw [computeAdv_length gamma lam rew vals nvals dns h1 h2 h3]; exact ht)
      (by omega)
  · rw [computeAdv_cons, computeAdv_nil]
    simp [maskOf]
  · subst hnv
    rw [computeAdv_cons, computeAdv_cons, computeAdv_nil]
    simp [maskOf]
    ring

/-- Witness for C3 at a concrete two-step batch. -/
theorem claim_C3_gae_witness :
    (∀ t, t < 2 →
      (computeAdv 1 1 [3, 5] [2, 1] [1, 0] [false, true]).getD t 0 =
        (([3, 5] : List ℚ).getD t 0 +
            1 * ([1, 0] : List ℚ).getD t 0 * maskOf (([false, true] : List Bool).getD t false) -
            ([2, 1] : List ℚ).getD t 0) +
          1 * 1 * maskOf (([false, true] : List Bool).getD t false) *
            (computeAdv 1 1 [3, 5] [2, 1] [1, 0] [false, true]).getD (t + 1) 0 ∧
      (computeReturns 1 1 [3, 5] [2, 1] [1, 0] [false, true]).getD t 0 =
        (computeAdv 1 1 [3, 5] [2, 1] [1, 0] [false, true]).getD t 0 +
          ([2, 1] : List ℚ).getD t 0) ∧
    (∀ r v nv, computeAdv 1 1 [r] [v] [nv] [true] = [r - v]) ∧
    (∀ r0 r1 v0 v1 nv0 nv1 : ℚ, nv0 = v1 →
      (computeAdv 1 1 [r0, r1] [v0, v1] [nv0, nv1] [false, true]).headD 0 =
        r0 + r1 - v0) :=
  claim_C3_gae 1 1 [3, 5] [2, 1] [1, 0] [false, true] (by decide) (by decide) (by decide)

/-- Mean of a list of rationals (`torch.Tensor.mean` over a 1-d tensor);
the empty mean is 0 by the rational convention `x / 0 = 0`. -/
def meanQ (xs : List ℚ) : ℚ := xs.sum / (xs.length : ℚ)

/-- `torch.clamp(x, lo, hi)` on scalars. -/
def clampQ (x lo hi : ℚ) : ℚ := min hi (max lo x)

/-- Per-iteration inputs of a PPO gradient step, as evaluated by
`PPOAgent.evaluate_actions`: the new per-sample log-probabilities `logp` and
predicted values `value`, together with the stored `logp_old`, the normalized
`adv`antages, and the `ret`urns. -/
structure IterInputs where
  logp : List ℚ
  logpOld : List ℚ
  adv : List ℚ
  ret : List ℚ
  value : List ℚ
deriving DecidableEq

/-- Embedding of the loss computation of one gradient iteration of
`PPOAgent.update` (ppo.py lines 119-122), given an exponential function
`expf` standing for `torch.exp`:
`ratio = exp(logp - logp_old)`;
`clip_adv = clamp(ratio, 1 - clip_ratio, 1 + clip_ratio) * adv`;
`loss_pi = -(min(ratio * adv, clip_adv)).mean()`;
`loss_v = 0.5 * ((ret - value) ** 2).mean()`.
Returns the pair `(loss_pi, loss_v)`. -/
def iterLosses (expf : ℚ → ℚ) (clipEps : ℚ) (x : IterInputs) : ℚ × ℚ :=
  let ratio := List.zipWith (fun n o => expf (n - o)) x.logp x.logpOld
  let clipAdv := List.zipWith (fun r a => clampQ r (1 - clipEps) (1 + clipEps) * a) ratio x.adv
  let lossPi := -(meanQ (List.zipWith min (List.zipWith (· * ·) ratio x.adv) clipAdv))
  let lossV := 1/2 * meanQ (List.zipWith (fun rt v => (rt - v) ^ 2) x.ret x.value)
  (lossPi, lossV)

/-- Modelled from the spec's words (section 4.6, step 4): the policy loss is
the negated mean of `min(ratio * advantage, clip(ratio, 1 - eps, 1 + eps) *
advantage)` with `ratio = exp(newLogProb - oldLogProb)`. -/
def specPolicyLoss (expf : ℚ → ℚ) (clipEps : ℚ) (x : IterInputs) : ℚ :=
  -(meanQ (List.zipWith
    (fun p : ℚ × ℚ => fun a =>
      min (expf (p.1 - p.2) * a) (clampQ (expf (p.1 - p.2)) (1 - clipEps) (1 + clipEps) * a))
    (List.zip x.logp x.logpOld) x.adv))

/-- Modelled from the spec's words (section 4.6, step 4): the value loss is
the mean squared error between predicted value and return. -/
def specValueLoss (x : IterInputs) : ℚ :=
  meanQ (List.zipWith (fun rt v => (rt - v) ^ 2) x.ret x.value)

lemma zipWith_min_mul (expf : ℚ → ℚ) (clipEps : ℚ) :
    ∀ (lp lpo adv : List ℚ),
      List.zipWith min
        (List.zipWith (· * ·) (List.zipWith (fun n o => expf (n - o)) lp lpo) adv)
        (List.zipWith (fun r a => clampQ r (1 - clipEps) (1 + clipEps) * a)
          (List.zipWith (fun n o => expf (n - o)) lp lpo) adv) =
      List.zipWith
        (fun p : ℚ × ℚ => fun a =>
          min (expf (p.1 - p.2) * a)
            (clampQ (expf (p.1 - p.2)) (1 - clipEps) (1 + clipEps) * a))
        (List.zip lp lpo) adv
  | [], _, _ => by simp
  | _ :: _, [], _ => by simp
  | _ :: _, _ :: _, [] => by simp
  | n :: lp, o :: lpo, a :: adv => by
    simp only [List.zipWith_cons_cons, List.zip_cons_cons, List.cons.injEq]
    exact ⟨by trivial, zipWith_min_mul expf clipEps lp lpo adv⟩

/-- Counterexample for C4: with one sample of return 1 and predicted value 0,
the value loss computed by the code is 1/2, not the mean squared error 1. -/
theorem claim_C4_counterexample :
    (iterLosses id (1/5) ⟨[], [], [], [1], [0]⟩).2 ≠
      specValueLoss ⟨[], [], [], [1], [0]⟩ := by
  norm_num [iterLosses, specValueLoss, meanQ]

/-- Claim C4 (amended): in every gradient iteration the policy loss is the
negated mean of `min(ratio * advantage, clip(ratio, 1 - eps, 1 + eps) *
advantage)` with `ratio = exp(newLogProb - oldLogProb)`, and the value loss
is HALF the mean squared error between predicted value and return. -/
theorem claim_C4_losses (expf : ℚ → ℚ) (clipEps : ℚ) (x : IterInputs) :
    (iterLosses expf clipEps x).1 = specPolicyLoss expf clipEps x ∧
    (iterLosses expf clipEps x).2 = 1/2 * specValueLoss x := by
  constructor
  · simp only [iterLosses, specPolicyLoss]
    rw [zipWith_min_mul]
  · rfl

/-- Embedding of `approx_kl = (logp_old_t - logp).mean().item()`
(ppo.py line 123). -/
def approxKl (lpOld lp : List ℚ) : ℚ :=
  meanQ (List.zipWith (fun o n => o - n) lpOld lp)

/-- Embedding of the iteration structure of `PPOAgent.update`
(ppo.py lines 117-133): the loop body runs, computing an approximate KL for
the iteration, and `break`s after any iteration whose approximate KL exceeds
`1.5 * target_kl`.  `klAt i` stands for the approximate KL produced by the
`i`-th gradient iteration (determined by the evolving network parameters);
the function returns how many gradient iterations are performed given `fuel`
remaining iterations starting at index `i`. -/
def updateLoopCount (targetKl : ℚ) (klAt : ℕ → ℚ) : ℕ → ℕ → ℕ
  | 0, _ => 0
  | fuel + 1, i =>
    1 + (if klAt i > 3/2 * targetKl then 0 else updateLoopCount targetKl klAt fuel (i + 1))

/-- Number of gradient iterations one call to `PPOAgent.update` performs. -/
def updateIterCount (trainIters : ℕ) (targetKl : ℚ) (klAt : ℕ → ℚ) : ℕ :=
  updateLoopCount targetKl klAt trainIters 0

lemma updateLoopCount_le (targetKl : ℚ) (klAt : ℕ → ℚ) :
    ∀ fuel i, updateLoopCount targetKl klAt fuel i ≤ fuel
  | 0, _ => Nat.le_refl 0
  | fuel + 1, i => by
    rw [updateLoopCount]
    split
    · omega
    · have := updateLoopCount_le targetKl klAt fuel (i + 1)
      omega

lemma updateLoopCount_stop (targetKl : ℚ) (klAt : ℕ → ℚ) :
    ∀ fuel i k, k < fuel → (∀ j, j < k → klAt (i + j) ≤ 3/2 * targetKl) →
      klAt (i + k) > 3/2 * targetKl →
      updateLoopCount targetKl klAt fuel i = k + 1
  | 0, _, _, hk, _, _ => by omega
  | fuel + 1, i, 0, _, _, hstop => by
    rw [updateLoopCount, if_pos (by simpa using hstop)]
  | fuel + 1, i, k + 1, hk, hok, hstop => by
    rw [updateLoopCount, if_neg (by simpa using not_lt.2 (hok 0 (by omega)))]
    have := updateLoopCount_stop targetKl klAt fuel (i + 1) k (by omega)
      (fun j hj => by
        have := hok (j + 1) (by omega)
        simpa [Nat.add_assoc, Nat.add_comm 1 j] using this)
      (by
        have : i + 1 + k = i + (k + 1) := by omega
        rw [this]; exact hstop)
    omega

lemma updateLoopCount_ran (targetKl : ℚ) (klAt : ℕ → ℚ) :
    ∀ fuel i j, j + 1 < updateLoopCount targetKl klAt fuel i →
      klAt (i + j) ≤ 3/2 * targetKl
  | 0, _, _, h => by rw [updateLoopCount] at h; omega
  | fuel + 1, i, 0, h => by
    rw [updateLoopCount] at h
    by_contra hc
    rw [if_pos (by simpa using not_le.1 hc)] at h
    omega
  | fuel + 1, i, j + 1, h => by
    rw [updateLoopCount] at h
    rcases lt_or_le (klAt i) (3/2 * targetKl + 1) with _ | _
    all_goals {
      by_cases hb : klAt i > 3/2 * targetKl
      · rw [if_pos hb] at h; omega
      · rw [if_neg hb] at h
        have := updateLoopCount_ran targetKl klAt fuel (i + 1) j (by omega)
        simpa [Nat.add_assoc, Nat.add_comm 1 j] using this }

/-- Claim C5: one call to `PPOAgent.update` performs at most `train_iters`
gradient iterations (hence terminates); every iteration before the last one
had approximate KL at most `1.5 * target_kl`; the loop stops right after the
first iteration whose approximate KL exceeds `1.5 * target_kl`; and the
per-iteration approximate KL is the mean of `oldLogProb - newLogProb`. -/
theorem claim_C5_update_loop (trainIters : ℕ) (targetKl : ℚ) (klAt : ℕ → ℚ) :
    updateIterCount trainIters targetKl klAt ≤ trainIters ∧
    (∀ j, j + 1 < updateIterCount trainIters targetKl klAt →
      klAt j ≤ 3/2 * targetKl) ∧
    (∀ k, k < trainIters → (∀ j, j < k → klAt j ≤ 3/2 * targetKl) →
      klAt k > 3/2 * targetKl →
      updateIterCount trainIters targetKl klAt = k + 1) ∧
    (∀ lpOld lp, approxKl lpOld lp =
      meanQ (List.zipWith (fun o n => o - n) lpOld lp)) := by
  refine ⟨updateLoopCount_le targetKl klAt trainIters 0,
    fun j hj => ?_, fun k hk hok hstop => ?_, fun _ _ => rfl⟩
  · have := updateLoopCount_ran targetKl klAt trainIters 0 j hj
    simpa using this
  · have := updateLoopCount_stop targetKl klAt trainIters 0 k hk
      (fun j hj => by simpa using hok j hj) (by simpa using hstop)
    exact this

/-- Witness for C5: with 3 allowed iterations, target KL 1/10 and a KL
sequence exceeding the threshold at iteration index 1, exactly 2 gradient
iterations run. -/
theorem claim_C5_update_loop_witness :
    updateIterCount 3 (1/10) (fun i => if i = 1 then 1 else 0) = 2 :=
  (claim_C5_update_loop 3 (1/10) (fun i => if i = 1 then 1 else 0)).2.2.1 1
    (by decide)
    (fun j hj => by interval_cases j; norm_num)
    (by norm_num)

/-- Python float values as far as the instability check needs them: a finite
rational, `nan`, `+inf` or `-inf`. -/
inductive FloatVal where
  | num (q : ℚ)
  | nan
  | pinf
  | ninf
deriving DecidableEq

/-- `math.isnan`. -/
def FloatVal.isnanB : FloatVal → Bool
  | .nan => true
  | _ => false

/-- `math.isinf`. -/
def FloatVal.isinfB : FloatVal → Bool
  | .pinf => true
  | .ninf => true
  | _ => false

/-- Python `abs` on floats: `abs(nan) = nan`, `abs(-inf) = inf`. -/
def FloatVal.fabs : FloatVal → FloatVal
  | .num q => .num |q|
  | .nan => .nan
  | .pinf => .pinf
  | .ninf => .pinf

/-- Python `>` between a float and a finite rational: comparisons with `nan`
are `False`, `inf > c` is `True`, `-inf > c` is `False`. -/
def FloatVal.pyGt : FloatVal → ℚ → Bool
  | .num q, c => decide (q > c)
  | .nan, _ => false
  | .pinf, _ => true
  | .ninf, _ => false

/-- A float is finite when it is neither `nan` nor an infinity. -/
def FloatVal.isFiniteB (v : FloatVal) : Bool := !(v.isnanB || v.isinfB)

/-- The trainable parameters of one role's policy: the `state_dict`s of the
policy network `pi` and the value network `vf`, abstracted as parameter
vectors.  `Trainer._snapshot_policy` clones both and
`Trainer._restore_policy` loads them back verbatim. -/
structure PolicyParams where
  pi : List ℚ
  vf : List ℚ
deriving DecidableEq

/-- The metrics dictionary `PPOAgent.update` returns (ppo.py lines 126-131). -/
structure UpdateMetrics where
  policyLoss : FloatVal
  valueLoss : FloatVal
  entropy : FloatVal
  approxKlM : FloatVal
deriving DecidableEq

/-- The instability condition of `Trainer._update_role`
(server.py lines 559-565): a nan/inf policy or value loss, or
`abs(metrics.get("approx_kl", 0.0)) > target_kl * 5.0` with Python float
comparison semantics. -/
def unstableMetrics (targetKl : ℚ) (m : UpdateMetrics) : Bool :=
  m.policyLoss.isnanB || m.valueLoss.isnanB ||
  m.policyLoss.isinfB || m.valueLoss.isinfB ||
  m.approxKlM.fabs.pyGt (targetKl * 5)

/-- Outcome of `Trainer._update_role` as far as parameters and reporting are
concerned: the role's parameters afterwards, the `rolled_back` flag, and the
reported `batch_size`, together with the final metrics. -/
structure UpdateOutcome where
  params : PolicyParams
  rolledBack : Bool
  batchSize : ℕ
  metrics : UpdateMetrics
deriving DecidableEq

/-- Embedding of the tail of `Trainer._update_role` (server.py lines
545-571).  `upd` stands for `self.policies[role].update(...)`: it maps the
parameters before the gradient steps to the parameters afterwards plus the
returned metrics, or `none` when it raises (the `except` branch, which also
restores the snapshot and reports `batch_size = 0`).  `batchLen` is
`len(rew)`.  The snapshot taken before the call is the input `p`; on an
unstable result `_restore_policy` loads it back and the reported batch size
becomes 0. -/
def updateRole (targetKl : ℚ) (batchLen : ℕ)
    (upd : PolicyParams → Option (PolicyParams × UpdateMetrics))
    (p : PolicyParams) : UpdateOutcome :=
  match upd p with
  | none => ⟨p, true, 0, ⟨.num 0, .num 0, .num 0, .num 0⟩⟩
  | some (p2, m) =>
    if unstableMetrics targetKl m then ⟨p, true, 0, m⟩
    else ⟨p2, false, batchLen, m⟩

/-- Claim C1: whenever the final policy or value loss is non-finite, or the
final approximate KL is a finite value exceeding five times the target KL
(or is `+inf`), the role's parameters after `_update_role` are exactly the
pre-update snapshot and the reported batch size is 0. -/
theorem claim_C1_rollback (targetKl : ℚ) (batchLen : ℕ)
    (upd : PolicyParams → Option (PolicyParams × UpdateMetrics))
    (p p2 : PolicyParams) (m : UpdateMetrics)
    (hupd : upd p = some (p2, m))
    (hbad : m.policyLoss.isFiniteB = false ∨ m.valueLoss.isFiniteB = false ∨
      (∃ q, m.approxKlM = .num q ∧ q > targetKl * 5) ∨ m.approxKlM = .pinf) :
    (updateRole targetKl batchLen upd p).params = p ∧
    (updateRole targetKl batchLen upd p).batchSize = 0 := by
  have hunstable : unstableMetrics targetKl m = true := by
    rcases hbad with h | h | ⟨q, hq, hgt⟩ | h
    · cases hpl : m.policyLoss <;>
        simp [FloatVal.isFiniteB, FloatVal.isnanB, FloatVal.isinfB, hpl] at h ⊢ <;>
        simp [unstableMetrics, FloatVal.isnanB, FloatVal.isinfB, hpl]
    · cases hvl : m.valueLoss <;>
        simp [FloatVal.isFiniteB, FloatVal.isnanB, FloatVal.isinfB, hvl] at h ⊢ <;>
        simp [unstableMetrics, FloatVal.isnanB, FloatVal.isinfB, hvl]
    · have habs : |q| > targetKl * 5 := lt_of_lt_of_le hgt (le_abs_self q)
      simp [unstableMetrics, hq, FloatVal.fabs, FloatVal.pyGt, habs]
    · simp [unstableMetrics, h, FloatVal.fabs, FloatVal.pyGt]
  unfold updateRole
  rw [hupd]
  simp [hunstable]

/-- Witness for C1: a concrete update with nan policy loss reports batch
size 0 and leaves the parameters at the snapshot. -/
theorem claim_C1_rollback_witness :
    (updateRole (1/100) 4
        (fun _ => some (⟨[9], [9]⟩, ⟨.nan, .num 0, .num 0, .num 0⟩))
        ⟨[1, 2], [3]⟩).params = ⟨[1, 2], [3]⟩ ∧
    (updateRole (1/100) 4
        (fun _ => some (⟨[9], [9]⟩, ⟨.nan, .num 0, .num 0, .num 0⟩))
        ⟨[1, 2], [3]⟩).batchSize = 0 :=
  claim_C1_rollback (1/100) 4 _ ⟨[1, 2], [3]⟩ ⟨[9], [9]⟩
    ⟨.nan, .num 0, .num 0, .num 0⟩ rfl (Or.inl rfl)

/-- The seven parallel per-role transition lists of `Trainer._make_buffer`
(server.py lines 102-111). -/
structure RoleBuffer where
  obs : List (List ℚ)
  act : List (List ℚ)
  rew : List ℚ
  done : List Bool
  logp : List ℚ
  val : List ℚ
  next_val : List ℚ
deriving DecidableEq

/-- A freshly made (or fully cleared) buffer. -/
def emptyBuffer : RoleBuffer := ⟨[], [], [], [], [], [], []⟩

/-- `for key, values in data.items(): self.buffers[role][key].extend(values)`
(server.py lines 279-280 and 285-286): extend each of the seven lists of `b`
with the corresponding list of `extra`. -/
def bufExtend (b extra : RoleBuffer) : RoleBuffer :=
  ⟨b.obs ++ extra.obs, b.act ++ extra.act, b.rew ++ extra.rew,
    b.done ++ extra.done, b.logp ++ extra.logp, b.val ++ extra.val,
    b.next_val ++ extra.next_val⟩

/-- The buffer append block of `Trainer._store_transition`
(server.py lines 419-427).  Line 421 appends `obs` first; line 422 then
builds `[float(act[0]), float(act[1]), float(act[2] if len(act) > 2 else
0.0)]` with indices 0 and 1 unguarded, so an action of fewer than two
components raises IndexError at that point: only the `obs` append has
happened, no other list is touched.  The returned Bool is `false` exactly
on that raise; on success one element is appended to each of the seven
lists (for `2 ≤ act.length` the `getD` reads equal the unguarded `act[0]`,
`act[1]`), with the stored next value 0 for a terminal transition. -/
def bufAppendTransition (b : RoleBuffer) (obs act : List ℚ) (rew : ℚ)
    (done : Bool) (logp value nextValue : ℚ) : RoleBuffer × Bool :=
  let b1 := { b with obs := b.obs ++ [obs] }
  if 2 ≤ act.length then
    (⟨b1.obs,
      b.act ++ [[act.getD 0 0, act.getD 1 0, if 2 < act.length then act.getD 2 0 else 0]],
      b.rew ++ [rew],
      b.done ++ [done],
      b.logp ++ [logp],
      b.val ++ [value],
      b.next_val ++ [if done then 0 else nextValue]⟩, true)
  else (b1, false)

lemma bufAppendTransition_success (b : RoleBuffer) (obs act : List ℚ)
    (rew : ℚ) (done : Bool) (logp value nextValue : ℚ)
    (hact : 2 ≤ act.length) :
    (bufAppendTransition b obs act rew done logp value nextValue).2 = true := by
  unfold bufAppendTransition
  dsimp only
  rw [if_pos hact]

/-- Result of the per-role part of `Trainer.maybe_update`: the role's buffer
afterwards, its parameters afterwards, and the update info when the update
was kept (not skipped and not rolled back). -/
structure RoleMaybeResult where
  buffer : RoleBuffer
  params : PolicyParams
  kept : Option UpdateOutcome
deriving DecidableEq

/-- Embedding of the per-role body of `Trainer.maybe_update`
(server.py lines 271-289): the buffer is snapshotted into `data` and
cleared; a batch below `batch_target` (measured on `data["obs"]`) is merged
back; otherwise `_update_role` runs (with `len(rew)` as the reported batch
length) and a rolled-back update also merges the batch back, while a kept
update leaves the buffer cleared. -/
def maybeUpdateRole (batchTarget : ℕ) (targetKl : ℚ)
    (upd : PolicyParams → Option (PolicyParams × UpdateMetrics))
    (buf : RoleBuffer) (p : PolicyParams) : RoleMaybeResult :=
  let data := buf
  let cleared := emptyBuffer
  if data.obs.length < batchTarget then
    ⟨bufExtend cleared data, p, none⟩
  else
    let out := updateRole targetKl data.rew.length upd p
    if out.rolledBack then ⟨bufExtend cleared data, out.params, none⟩
    else ⟨cleared, out.params, some out⟩

lemma bufExtend_empty (b : RoleBuffer) : bufExtend emptyBuffer b = b := by
  simp [bufExtend, emptyBuffer]

/-- Counterexample for C2: with `batch_target = 1`, a one-transition buffer
and an update returning a nan policy loss, the rolled-back
`maybe_update` puts the whole batch back into the role's buffer — the
transitions are still there, not discarded. -/
theorem claim_C2_counterexample :
    (maybeUpdateRole 1 (1/100)
        (fun _ => some (⟨[9], [9]⟩, ⟨.nan, .num 0, .num 0, .num 0⟩))
        ⟨[[0]], [[0, 0, 0]], [2], [false], [0], [0], [0]⟩ ⟨[1], [1]⟩) =
      ⟨⟨[[0]], [[0, 0, 0]], [2], [false], [0], [0], [0]⟩, ⟨[1], [1]⟩, none⟩ := by
  rfl

/-- Claim C2 (amended): when an update for a role is rolled back for
instability, the swapped-out batch is requeued, not discarded: after the
rolled-back update the role's buffer again holds exactly the transitions it
held before, available to later updates. -/
theorem claim_C2_requeue (batchTarget : ℕ) (targetKl : ℚ)
    (upd : PolicyParams → Option (PolicyParams × UpdateMetrics))
    (buf : RoleBuffer) (p : PolicyParams)
    (hfull : batchTarget ≤ buf.obs.length)
    (hrb : (updateRole targetKl buf.rew.length upd p).rolledBack = true) :
    (maybeUpdateRole batchTarget targetKl upd buf p).buffer = buf := by
  unfold maybeUpdateRole
  rw [if_neg (by omega), if_pos hrb, bufExtend_empty]

/-- Witness for C2 (amended) at a concrete rolled-back update. -/
theorem claim_C2_requeue_witness :
    (maybeUpdateRole 1 (1/100)
        (fun _ => some (⟨[7], [7]⟩, ⟨.num 0, .pinf, .num 0, .num 0⟩))
        ⟨[[5]], [[1, 1, 0]], [3], [true], [0], [0], [0]⟩ ⟨[2], [2]⟩).buffer =
      ⟨[[5]], [[1, 1, 0]], [3], [true], [0], [0], [0]⟩ :=
  claim_C2_requeue 1 (1/100) _ _ ⟨[2], [2]⟩ (by decide) (by rfl)

/-- The invariant of claim C10: the seven parallel lists of a role buffer
have equal lengths. -/
def bufferInvariant (b : RoleBuffer) : Prop :=
  b.act.length = b.obs.length ∧ b.rew.length = b.obs.length ∧
  b.done.length = b.obs.length ∧ b.logp.length = b.obs.length ∧
  b.val.length = b.obs.length ∧ b.next_val.length = b.obs.length

instance (b : RoleBuffer) : Decidable (bufferInvariant b) := by
  unfold bufferInvariant; infer_instance

/-- Claim C10 (amended): the seven parallel lists have equal lengths in a
fresh buffer; a transition whose action has at least two components
preserves the equality (each of the seven lists grows by one); and the
per-role `maybe_update` body preserves it (it either clears all seven lists
together, restores all seven together, or leaves all seven cleared).  An
action shorter than two components raises IndexError after appending only
the observation (see `claim_C10_counterexample`), so the unrestricted claim
fails. -/
theorem claim_C10_buffer_lengths :
    bufferInvariant emptyBuffer ∧
    (∀ (b : RoleBuffer) (obs act : List ℚ) (rew : ℚ) (done : Bool)
        (logp value nextValue : ℚ), 2 ≤ act.length → bufferInvariant b →
      bufferInvariant (bufAppendTransition b obs act rew done logp value nextValue).1) ∧
    (∀ (batchTarget : ℕ) (targetKl : ℚ)
        (upd : PolicyParams → Option (PolicyParams × UpdateMetrics))
        (buf : RoleBuffer) (p : PolicyParams), bufferInvariant buf →
      bufferInvariant (maybeUpdateRole batchTarget targetKl upd buf p).buffer) := by
  refine ⟨by simp [bufferInvariant, emptyBuffer], ?_, ?_⟩
  · intro b obs act rew done logp value nextValue hact hb
    obtain ⟨h1, h2, h3, h4, h5, h6⟩ := hb
    unfold bufAppendTransition
    dsimp only
    rw [if_pos hact]
    simp [bufferInvariant, h1, h2, h3, h4, h5, h6]
  · intro batchTarget targetKl upd buf p hb
    unfold maybeUpdateRole
    dsimp only
    split
    · simpa [bufExtend_empty] using hb
    · split
      · simpa [bufExtend_empty] using hb
      · simp [bufferInvariant, emptyBuffer]

/-- Witness for C10: the invariant holds after appending a concrete
transition with a two-component action to the fresh buffer. -/
theorem claim_C10_buffer_lengths_witness :
    2 ≤ ([1, 0] : List ℚ).length ∧
    bufferInvariant (bufAppendTransition emptyBuffer [1] [1, 0] 2 false 0 0 3).1 :=
  ⟨by decide,
    claim_C10_buffer_lengths.2.1 emptyBuffer [1] [1, 0] 2 false 0 0 3 (by decide)
      claim_C10_buffer_lengths.1⟩

/-- An entry of `Trainer.act_cache` (server.py line 227):
`{"logp": logp, "value": value, "role": role}`. -/
structure CacheEntry where
  logp : ℚ
  value : ℚ
  role : String
deriving DecidableEq

/-- A per-role `PPOAgent` as far as its tensor shapes are concerned:
`PPOAgent(cfg)` builds networks sized to `cfg.obs_dim`/`cfg.act_dim`
(ppo.py lines 52-59).  `load_policy` either loads equally-shaped parameters
or raises (caught in `ensure_policy`), so the shapes always remain those of
the construction-time configuration. -/
structure PolicyNet where
  obsDim : ℕ
  actDim : ℕ
deriving DecidableEq

/-- One row of `metrics.csv` as `Trainer.log_episode` writes it
(server.py lines 338-366), field per column. -/
structure MetricsRow where
  episode : ℕ
  episodeId : Int
  rewardMean : ℚ
  rewardSum : ℚ
  steps : ℕ
  updates : ℕ
  advMean : ℚ
  advStd : ℚ
  policyLoss : ℚ
  valueLoss : ℚ
  seekerRewardSum : ℚ
  seekerRewardMean : ℚ
  seekerSteps : ℕ
  seekerAvgDistance : ℚ
  hiderRewardSum : ℚ
  hiderRewardMean : ℚ
  hiderSteps : ℕ
  hiderAvgDistance : ℚ
  winner : String
  terminalReason : String
  durationSec : ℚ
deriving DecidableEq

/-- The mutable state of a `Trainer` relevant to configuration, buffering
and episode logging.  The role-keyed dictionaries (`policies`, `buffers`,
`current_ep_rewards`, `current_ep_steps`, `current_ep_distances`) are
represented by a seeker field and a hider field, matching the role domain
`self.roles = ("seeker", "hider")` that `_role_from_obs` produces.  The
metrics CSV becomes the list `rows`. -/
structure TrainerState where
  cfg : Option (ℕ × ℕ)
  seekerPolicy : Option PolicyNet
  hiderPolicy : Option PolicyNet
  seekerBuf : RoleBuffer
  hiderBuf : RoleBuffer
  actCache : List (String × CacheEntry)
  seekerUpdates : ℕ
  hiderUpdates : ℕ
  episodesLogged : ℕ
  epSeekerRewards : List ℚ
  epHiderRewards : List ℚ
  epSeekerSteps : ℕ
  epHiderSteps : ℕ
  epSeekerDistances : List ℚ
  epHiderDistances : List ℚ
  epDuration : ℚ
  epWinner : String
  epTerminalReason : String
  epEpisodeId : Option Int
  rows : List MetricsRow
  lastAdvMean : ℚ
  lastAdvStd : ℚ
  lastPolicyLoss : ℚ
  lastValueLoss : ℚ
deriving DecidableEq

/-- The state `Trainer.__init__` establishes (server.py lines 33-100):
no configuration, no policies, empty buffers, empty cache, zero counters,
freshly reset episode statistics, empty metrics log. -/
def initialState : TrainerState :=
  { cfg := none, seekerPolicy := none, hiderPolicy := none,
    seekerBuf := emptyBuffer, hiderBuf := emptyBuffer, actCache := [],
    seekerUpdates := 0, hiderUpdates := 0, episodesLogged := 0,
    epSeekerRewards := [], epHiderRewards := [],
    epSeekerSteps := 0, epHiderSteps := 0,
    epSeekerDistances := [], epHiderDistances := [],
    epDuration := 0, epWinner := "", epTerminalReason := "",
    epEpisodeId := none, rows := [],
    lastAdvMean := 0, lastAdvStd := 0, lastPolicyLoss := 0, lastValueLoss := 0 }

/-- `self.policies[role]` lookup restricted to the two reachable roles. -/
def rolePolicy (s : TrainerState) (role : String) : Option PolicyNet :=
  if role = "seeker" then s.seekerPolicy
  else if role = "hider" then s.hiderPolicy
  else none

/-- The reset block of `Trainer.ensure_policy` (server.py lines 186-194):
drops the configuration, both policies, both buffers, the action cache and
the per-role update counters (the per-role `last_metrics` diagnostics the
code also zeroes are not part of this state). -/
def resetForReinit (s : TrainerState) : TrainerState :=
  { s with
      cfg := none, seekerPolicy := none, hiderPolicy := none,
      seekerBuf := emptyBuffer, hiderBuf := emptyBuffer, actCache := [],
      seekerUpdates := 0, hiderUpdates := 0 }

/-- Embedding of `Trainer.ensure_policy` (server.py lines 177-213): on a
dimension mismatch with the current configuration everything role-scoped is
reset; then, unless a configuration with policies already stands, a fresh
configuration and fresh per-role policies sized to the requested dimensions
are constructed.  Loading checkpoint files from disk (lines 199-213) either
replaces parameters with equally-shaped ones or raises and is caught, so it
never changes the constructed shapes. -/
def ensurePolicy (s : TrainerState) (obsDim actDim : ℕ) : TrainerState :=
  let s1 :=
    match s.cfg with
    | some (od, ad) => if od ≠ obsDim ∨ ad ≠ actDim then resetForReinit s else s
    | none => s
  if s1.cfg.isSome ∧ (s1.seekerPolicy.isSome ∨ s1.hiderPolicy.isSome) then s1
  else
    { s1 with
        cfg := some (obsDim, actDim),
        seekerPolicy := some ⟨obsDim, actDim⟩,
        hiderPolicy := some ⟨obsDim, actDim⟩ }

/-- The policy-selection part of `Trainer.act_with_cache` (server.py lines
219-224): size the policies to the observation (`act_dim` defaults to 3),
route the role, and return the policy that produces the action — `none` is
the uniform-random fallback for a missing policy.  Sampling and the cache
write are the function approximator's business and do not affect which
network is used. -/
def actPolicy (s : TrainerState) (obs : List ℚ) :
    TrainerState × Option PolicyNet :=
  let s1 := ensurePolicy s obs.length 3
  (s1, rolePolicy s1 (roleFromObs obs))

lemma roleFromObs_cases (obs : List ℚ) :
    roleFromObs obs = "seeker" ∨ roleFromObs obs = "hider" := by
  unfold roleFromObs
  split
  · split
    · exact Or.inl rfl
    · exact Or.inr rfl
  · exact Or.inr rfl

/-- Claim C6: an inference request whose observation length differs from the
configured `obs_dim` discards both roles' policies, both buffers and the
action cache, constructs fresh policies sized to the new dimensions, and the
policy the request itself dispatches with (when any) is sized to the new
observation length. -/
theorem claim_C6_dim_change_reset (s : TrainerState) (obs : List ℚ)
    (od ad : ℕ) (hcfg : s.cfg = some (od, ad)) (hne : od ≠ obs.length) :
    (actPolicy s obs).1.seekerPolicy = some ⟨obs.length, 3⟩ ∧
    (actPolicy s obs).1.hiderPolicy = some ⟨obs.length, 3⟩ ∧
    (actPolicy s obs).1.seekerBuf = emptyBuffer ∧
    (actPolicy s obs).1.hiderBuf = emptyBuffer ∧
    (actPolicy s obs).1.actCache = [] ∧
    (∀ pn, (actPolicy s obs).2 = some pn → pn.obsDim = obs.length) := by
  have hens : ensurePolicy s obs.length 3 =
      { resetForReinit s with
          cfg := some (obs.length, 3),
          seekerPolicy := some ⟨obs.length, 3⟩,
          hiderPolicy := some ⟨obs.length, 3⟩ } := by
    unfold ensurePolicy
    rw [hcfg]
    dsimp only
    rw [if_pos (Or.inl hne)]
    rw [if_neg (by simp [resetForReinit])]
  unfold actPolicy
  dsimp only
  rw [hens]
  refine ⟨rfl, rfl, rfl, rfl, rfl, fun pn hpn => ?_⟩
  rcases roleFromObs_cases obs with hr | hr <;>
    · rw [hr] at hpn
      simp [rolePolicy] at hpn
      rw [← hpn]

/-- Witness for C6: starting configured at `obs_dim = 4`, a 9-element
observation forces the reset and dispatches with a policy sized 9. -/
theorem claim_C6_dim_change_reset_witness :
    (actPolicy { initialState with
        cfg := some (4, 3),
        seekerPolicy := some ⟨4, 3⟩, hiderPolicy := some ⟨4, 3⟩,
        actCache := [("a", ⟨0, 0, "seeker"⟩)] }
      [0, 0, 0, 0, 0, 0, 0, 0, 1]).1.seekerPolicy = some ⟨9, 3⟩ ∧
    (actPolicy { initialState with
        cfg := some (4, 3),
        seekerPolicy := some ⟨4, 3⟩, hiderPolicy := some ⟨4, 3⟩,
        actCache := [("a", ⟨0, 0, "seeker"⟩)] }
      [0, 0, 0, 0, 0, 0, 0, 0, 1]).1.hiderPolicy = some ⟨9, 3⟩ ∧
    (actPolicy { initialState with
        cfg := some (4, 3),
        seekerPolicy := some ⟨4, 3⟩, hiderPolicy := some ⟨4, 3⟩,
        actCache := [("a", ⟨0, 0, "seeker"⟩)] }
      [0, 0, 0, 0, 0, 0, 0, 0, 1]).1.seekerBuf = emptyBuffer ∧
    (actPolicy { initialState with
        cfg := some (4, 3),
        seekerPolicy := some ⟨4, 3⟩, hiderPolicy := some ⟨4, 3⟩,
        actCache := [("a", ⟨0, 0, "seeker"⟩)] }
      [0, 0, 0, 0, 0, 0, 0, 0, 1]).1.hiderBuf = emptyBuffer ∧
    (actPolicy { initialState with
        cfg := some (4, 3),
        seekerPolicy := some ⟨4, 3⟩, hiderPolicy := some ⟨4, 3⟩,
        actCache := [("a", ⟨0, 0, "seeker"⟩)] }
      [0, 0, 0, 0, 0, 0, 0, 0, 1]).1.actCache = [] ∧
    (∀ pn, (actPolicy { initialState with
        cfg := some (4, 3),
        seekerPolicy := some ⟨4, 3⟩, hiderPolicy := some ⟨4, 3⟩,
        actCache := [("a", ⟨0, 0, "seeker"⟩)] }
      [0, 0, 0, 0, 0, 0, 0, 0, 1]).2 = some pn → pn.obsDim = 9) :=
  claim_C6_dim_change_reset _ [0, 0, 0, 0, 0, 0, 0, 0, 1] 4 3 rfl (by decide)

/-- The auxiliary metadata a transition's `info` dictionary may carry
(server.py lines 431-455). -/
structure InfoDict where
  distanceToOther : Option ℚ
  timeElapsed : Option ℚ
  winner : Option String
  terminalReason : Option String
  episode : Option Int
deriving DecidableEq

/-- Embedding of `Trainer._pull_cached_act` (server.py lines 461-463) with
the key defaulting of `_store_transition` line 409: pop the entry keyed by
the agent name (or the singleton key) from the cache, returning the entry
(if any) and the cache without it. -/
def pullCachedAct (cache : List (String × CacheEntry)) (agentName : String) :
    Option CacheEntry × List (String × CacheEntry) :=
  let key := if agentName = "" then "__single__" else agentName
  match cache.lookup key with
  | some c => (some c, cache.eraseP (fun kv => kv.1 == key))
  | none => (none, cache)

/-- Embedding of `Trainer._evaluate_offline` (server.py lines 465-471):
`(0, 0)` when the role has no policy, otherwise the network evaluation,
supplied as the function `offlineLV`. -/
def evaluateOffline (offlineLV : List ℚ → List ℚ → ℚ × ℚ)
    (s : TrainerState) (role : String) (obs act : List ℚ) : ℚ × ℚ :=
  if rolePolicy s role = none then (0, 0) else offlineLV obs act

/-- `info_dict.get("distance_to_other")` handling (server.py lines 432-437). -/
def applyDistance (s : TrainerState) (role : String) (d : Option ℚ) : TrainerState :=
  match d with
  | some q =>
    if role = "seeker" then { s with epSeekerDistances := s.epSeekerDistances ++ [q] }
    else { s with epHiderDistances := s.epHiderDistances ++ [q] }
  | none => s

/-- `info_dict.get("time_elapsed")` handling (server.py lines 438-443). -/
def applyDuration (s : TrainerState) (t : Option ℚ) : TrainerState :=
  match t with
  | some q => { s with epDuration := max s.epDuration q }
  | none => s

/-- `info_dict.get("winner")` handling (server.py lines 444-447). -/
def applyWinner (s : TrainerState) (w : Option String) : TrainerState :=
  if s.epWinner = "" then
    match w with
    | some v => { s with epWinner := v }
    | none => s
  else s

/-- `info_dict.get("terminal_reason")` handling (server.py lines 448-451). -/
def applyTerminalReason (s : TrainerState) (tr : Option String) : TrainerState :=
  if s.epTerminalReason = "" then
    match tr with
    | some v => { s with epTerminalReason := v }
    | none => s
  else s

/-- `info_dict.get("episode")` handling (server.py lines 452-455). -/
def applyEpisodeId (s : TrainerState) (e : Option Int) : TrainerState :=
  if s.epEpisodeId = none then
    match e with
    | some v => { s with epEpisodeId := some v }
    | none => s
  else s

/-- The `if info_dict:` block of `Trainer._store_transition`
(server.py lines 431-455); a missing `info` skips the whole block. -/
def applyInfo (s : TrainerState) (role : String) (info : Option InfoDict) :
    TrainerState :=
  match info with
  | none => s
  | some d =>
    applyEpisodeId
      (applyTerminalReason
        (applyWinner
          (applyDuration (applyDistance s role d.distanceToOther) d.timeElapsed)
          d.winner)
        d.terminalReason)
      d.episode

/-- Embedding of `Trainer._store_transition` (server.py lines 397-459),
with the function approximator supplied as arguments: `offlineLV` models
`PPOAgent.evaluate_actions` on `(obs, act)` and `valueFn` models
`PPOAgent.value` on `next_obs`.  The cached log-prob/value is popped
(preferred), otherwise recomputed offline; the bootstrap value is evaluated
only for non-terminal transitions with a next observation and an existing
policy; the transition is appended to the routed role's buffer, the role's
episode statistics advance, the info metadata is applied, and a terminal
transition with a named agent drops that agent's cache entry.  Returns the
updated state and `some done` on a normal return; an action of fewer than
two components makes the buffer append raise IndexError (server.py line
422), so the result is `none` with a state in which only the cache pop and
the observation append have happened — the statistics update, the info
handling and the final cache drop are all skipped and the exception
propagates to the caller. -/
def storeTransition (offlineLV : List ℚ → List ℚ → ℚ × ℚ)
    (valueFn : List ℚ → ℚ) (s : TrainerState) (role : String)
    (obs act : List ℚ) (rew : ℚ) (done : Bool) (nextObs : Option (List ℚ))
    (agentName : String) (info : Option InfoDict) : TrainerState × Option Bool :=
  let pulled := pullCachedAct s.actCache agentName
  let lv : ℚ × ℚ :=
    match pulled.1 with
    | some c => (c.logp, c.value)
    | none => evaluateOffline offlineLV s role obs act
  let nextValue : ℚ :=
    if done = false ∧ nextObs.isSome ∧ rolePolicy s role ≠ none then
      valueFn (nextObs.getD [])
    else 0
  let s1 := { s with actCache := pulled.2 }
  let appended :=
    if role = "seeker" then
      bufAppendTransition s1.seekerBuf obs act rew done lv.1 lv.2 nextValue
    else
      bufAppendTransition s1.hiderBuf obs act rew done lv.1 lv.2 nextValue
  if appended.2 = false then
    (if role = "seeker" then { s1 with seekerBuf := appended.1 }
      else { s1 with hiderBuf := appended.1 }, none)
  else
    let s2 :=
      if role = "seeker" then
        { s1 with
            seekerBuf := appended.1,
            epSeekerRewards := s1.epSeekerRewards ++ [rew],
            epSeekerSteps := s1.epSeekerSteps + 1 }
      else
        { s1 with
            hiderBuf := appended.1,
            epHiderRewards := s1.epHiderRewards ++ [rew],
            epHiderSteps := s1.epHiderSteps + 1 }
    let s3 := applyInfo s2 role info
    let s4 :=
      if done = true ∧ agentName ≠ "" then
        { s3 with actCache := s3.actCache.eraseP (fun kv => kv.1 == agentName) }
      else s3
    (s4, some done)

/-- Embedding of `Trainer._reset_episode_stats` (server.py lines 168-175). -/
def resetEpisodeStats (s : TrainerState) : TrainerState :=
  { s with
      epSeekerRewards := [], epHiderRewards := [],
      epSeekerSteps := 0, epHiderSteps := 0,
      epSeekerDistances := [], epHiderDistances := [],
      epDuration := 0, epWinner := "", epTerminalReason := "",
      epEpisodeId := none }

/-- The metrics row `Trainer.log_episode` assembles (server.py lines
311-366) when at least one sample was collected; `episodes_logged` is
already incremented when the row is formed, matching the code's order. -/
def logRow (s : TrainerState) : MetricsRow :=
  let totalSamples := s.epSeekerRewards.length + s.epHiderRewards.length
  let epSum := s.epSeekerRewards.sum + s.epHiderRewards.sum
  { episode := s.episodesLogged + 1
    episodeId :=
      match s.epEpisodeId with
      | some e => e
      | none => ((s.episodesLogged + 1 : ℕ) : Int)
    rewardMean := epSum / (totalSamples : ℚ)
    rewardSum := epSum
    steps := max s.epSeekerSteps s.epHiderSteps
    updates := s.seekerUpdates + s.hiderUpdates
    advMean := s.lastAdvMean
    advStd := s.lastAdvStd
    policyLoss := s.lastPolicyLoss
    valueLoss := s.lastValueLoss
    seekerRewardSum := s.epSeekerRewards.sum
    seekerRewardMean := if s.epSeekerRewards = [] then 0 else meanQ s.epSeekerRewards
    seekerSteps := s.epSeekerSteps
    seekerAvgDistance := if s.epSeekerDistances = [] then 0 else meanQ s.epSeekerDistances
    hiderRewardSum := s.epHiderRewards.sum
    hiderRewardMean := if s.epHiderRewards = [] then 0 else meanQ s.epHiderRewards
    hiderSteps := s.epHiderSteps
    hiderAvgDistance := if s.epHiderDistances = [] then 0 else meanQ s.epHiderDistances
    winner := s.epWinner
    terminalReason := s.epTerminalReason
    durationSec := s.epDuration }

/-- Embedding of `Trainer.log_episode` (server.py lines 311-374): a no-op
with zero collected samples, otherwise one row is appended, the episode
counter advances, all episode statistics are reset and the action cache is
cleared. -/
def logEpisode (s : TrainerState) : TrainerState :=
  if s.epSeekerRewards.length + s.epHiderRewards.length = 0 then s
  else
    { resetEpisodeStats
        { s with rows := s.rows ++ [logRow s], episodesLogged := s.episodesLogged + 1 } with
        actCache := [] }

/-- Embedding of `Trainer.add_transition` (server.py lines 230-242): route
the role from the observation, store the transition, and flush the episode
when the transition closed it.  When the store raises (short action), no
flush happens: the exception reaches the caller (the batch driver at
server.py lines 261-262 swallows it and moves on) and the partially-updated
state stands. -/
def addTransition (offlineLV : List ℚ → List ℚ → ℚ × ℚ) (valueFn : List ℚ → ℚ)
    (s : TrainerState) (obs act : List ℚ) (rew : ℚ) (done : Bool)
    (nextObs : Option (List ℚ)) (agentName : String) (info : Option InfoDict) :
    TrainerState :=
  let r := storeTransition offlineLV valueFn s (roleFromObs obs)
    obs act rew done nextObs agentName info
  match r.2 with
  | some fin => if fin then logEpisode r.1 else r.1
  | none => r.1

/-- One inbound transition message, as `add_transition` receives it. -/
structure TransIn where
  obs : List ℚ
  act : List ℚ
  rew : ℚ
  done : Bool
  nextObs : Option (List ℚ)
  agentName : String
  info : Option InfoDict
deriving DecidableEq

/-- A sequence of `add_transition` calls. -/
def runAdds (offlineLV : List ℚ → List ℚ → ℚ × ℚ) (valueFn : List ℚ → ℚ)
    (s : TrainerState) (trs : List TransIn) : TrainerState :=
  trs.foldl
    (fun st tr =>
      addTransition offlineLV valueFn st tr.obs tr.act tr.rew tr.done
        tr.nextObs tr.agentName tr.info)
    s

/-- The episode statistics are exactly as `_reset_episode_stats` leaves
them. -/
def epStatsFresh (s : TrainerState) : Prop :=
  s.epSeekerRewards = [] ∧ s.epHiderRewards = [] ∧
  s.epSeekerSteps = 0 ∧ s.epHiderSteps = 0 ∧
  s.epSeekerDistances = [] ∧ s.epHiderDistances = [] ∧
  s.epDuration = 0 ∧ s.epWinner = "" ∧ s.epTerminalReason = "" ∧
  s.epEpisodeId = none

instance (s : TrainerState) : Decidable (epStatsFresh s) := by
  unfold epStatsFresh; infer_instance

lemma applyDistance_proj (s : TrainerState) (role : String) (d : Option ℚ) :
    (applyDistance s role d).rows = s.rows ∧
    (applyDistance s role d).epSeekerRewards = s.epSeekerRewards ∧
    (applyDistance s role d).epHiderRewards = s.epHiderRewards ∧
    (applyDistance s role d).epSeekerSteps = s.epSeekerSteps ∧
    (applyDistance s role d).epHiderSteps = s.epHiderSteps := by
  unfold applyDistance
  cases d
  · exact ⟨rfl, rfl, rfl, rfl, rfl⟩
  · dsimp only
    split <;> exact ⟨rfl, rfl, rfl, rfl, rfl⟩

lemma applyDuration_proj (s : TrainerState) (t : Option ℚ) :
    (applyDuration s t).rows = s.rows ∧
    (applyDuration s t).epSeekerRewards = s.epSeekerRewards ∧
    (applyDuration s t).epHiderRewards = s.epHiderRewards ∧
    (applyDuration s t).epSeekerSteps = s.epSeekerSteps ∧
    (applyDuration s t).epHiderSteps = s.epHiderSteps := by
  unfold applyDuration
  cases t <;> exact ⟨rfl, rfl, rfl, rfl, rfl⟩

lemma applyWinner_proj (s : TrainerState) (w : Option String) :
    (applyWinner s w).rows = s.rows ∧
    (applyWinner s w).epSeekerRewards = s.epSeekerRewards ∧
    (applyWinner s w).epHiderRewards = s.epHiderRewards ∧
    (applyWinner s w).epSeekerSteps = s.epSeekerSteps ∧
    (applyWinner s w).epHiderSteps = s.epHiderSteps := by
  unfold applyWinner
  split
  · cases w <;> exact ⟨rfl, rfl, rfl, rfl, rfl⟩
  · exact ⟨rfl, rfl, rfl, rfl, rfl⟩

lemma applyTerminalReason_proj (s : TrainerState) (tr : Option String) :
    (applyTerminalReason s tr).rows = s.rows ∧
    (applyTerminalReason s tr).epSeekerRewards = s.epSeekerRewards ∧
    (applyTerminalReason s tr).epHiderRewards = s.epHiderRewards ∧
    (applyTerminalReason s tr).epSeekerSteps = s.epSeekerSteps ∧
    (applyTerminalReason s tr).epHiderSteps = s.epHiderSteps := by
  unfold applyTerminalReason
  split
  · cases tr <;> exact ⟨rfl, rfl, rfl, rfl, rfl⟩
  · exact ⟨rfl, rfl, rfl, rfl, rfl⟩

lemma applyEpisodeId_proj (s : TrainerState) (e : Option Int) :
    (applyEpisodeId s e).rows = s.rows ∧
    (applyEpisodeId s e).epSeekerRewards = s.epSeekerRewards ∧
    (applyEpisodeId s e).epHiderRewards = s.epHiderRewards ∧
    (applyEpisodeId s e).epSeekerSteps = s.epSeekerSteps ∧
    (applyEpisodeId s e).epHiderSteps = s.epHiderSteps := by
  unfold applyEpisodeId
  split
  · cases e <;> exact ⟨rfl, rfl, rfl, rfl, rfl⟩
  · exact ⟨rfl, rfl, rfl, rfl, rfl⟩

lemma applyInfo_proj (s : TrainerState) (role : String) (info : Option InfoDict) :
    (applyInfo s role info).rows = s.rows ∧
    (applyInfo s role info).epSeekerRewards = s.epSeekerRewards ∧
    (applyInfo s role info).epHiderRewards = s.epHiderRewards ∧
    (applyInfo s role info).epSeekerSteps = s.epSeekerSteps ∧
    (applyInfo s role info).epHiderSteps = s.epHiderSteps := by
  cases info with
  | none => exact ⟨rfl, rfl, rfl, rfl, rfl⟩
  | some d =>
    unfold applyInfo
    obtain ⟨a1, a2, a3, a4, a5⟩ := applyDistance_proj s role d.distanceToOther
    obtain ⟨b1, b2, b3, b4, b5⟩ :=
      applyDuration_proj (applyDistance s role d.distanceToOther) d.timeElapsed
    obtain ⟨c1, c2, c3, c4, c5⟩ :=
      applyWinner_proj
        (applyDuration (applyDistance s role d.distanceToOther) d.timeElapsed) d.winner
    obtain ⟨e1, e2, e3, e4, e5⟩ :=
      applyTerminalReason_proj
        (applyWinner
          (applyDuration (applyDistance s role d.distanceToOther) d.timeElapsed)
          d.winner) d.terminalReason
    obtain ⟨f1, f2, f3, f4, f5⟩ :=
      applyEpisodeId_proj
        (applyTerminalReason
          (applyWinner
            (applyDuration (applyDistance s role d.distanceToOther) d.timeElapsed)
            d.winner) d.terminalReason) d.episode
    exact ⟨by rw [f1, e1, c1, b1, a1], by rw [f2, e2, c2, b2, a2],
      by rw [f3, e3, c3, b3, a3], by rw [f4, e4, c4, b4, a4],
      by rw [f5, e5, c5, b5, a5]⟩

lemma storeDonePop_proj (X : TrainerState) (done : Bool) (an : String) :
    (if done = true ∧ an ≠ "" then
        { X with actCache := X.actCache.eraseP (fun kv => kv.1 == an) }
      else X).rows = X.rows ∧
    (if done = true ∧ an ≠ "" then
        { X with actCache := X.actCache.eraseP (fun kv => kv.1 == an) }
      else X).epSeekerRewards = X.epSeekerRewards ∧
    (if done = true ∧ an ≠ "" then
        { X with actCache := X.actCache.eraseP (fun kv => kv.1 == an) }
      else X).epHiderRewards = X.epHiderRewards ∧
    (if done = true ∧ an ≠ "" then
        { X with actCache := X.actCache.eraseP (fun kv => kv.1 == an) }
      else X).epSeekerSteps = X.epSeekerSteps ∧
    (if done = true ∧ an ≠ "" then
        { X with actCache := X.actCache.eraseP (fun kv => kv.1 == an) }
      else X).epHiderSteps = X.epHiderSteps := by
  split <;> exact ⟨rfl, rfl, rfl, rfl, rfl⟩

lemma storeTransition_proj (olv : List ℚ → List ℚ → ℚ × ℚ) (vfn : List ℚ → ℚ)
    (s : TrainerState) (role : String) (obs act : List ℚ) (rew : ℚ)
    (done : Bool) (nobs : Option (List ℚ)) (an : String)
    (info : Option InfoDict) (hact : 2 ≤ act.length) :
    (storeTransition olv vfn s role obs act rew done nobs an info).2 = some done ∧
    (storeTransition olv vfn s role obs act rew done nobs an info).1.rows = s.rows ∧
    (storeTransition olv vfn s role obs act rew done nobs an info).1.epSeekerRewards =
      (if role = "seeker" then s.epSeekerRewards ++ [rew] else s.epSeekerRewards) ∧
    (storeTransition olv vfn s role obs act rew done nobs an info).1.epHiderRewards =
      (if role = "seeker" then s.epHiderRewards else s.epHiderRewards ++ [rew]) ∧
    (storeTransition olv vfn s role obs act rew done nobs an info).1.epSeekerSteps =
      (if role = "seeker" then s.epSeekerSteps + 1 else s.epSeekerSteps) ∧
    (storeTransition olv vfn s role obs act rew done nobs an info).1.epHiderSteps =
      (if role = "seeker" then s.epHiderSteps else s.epHiderSteps + 1) := by
  constructor
  · unfold storeTransition
    dsimp only
    rw [if_neg (by
      split <;>
        simp [bufAppendTransition_success _ obs act rew done _ _ _ hact])]
  refine ⟨?_, ?_, ?_, ?_, ?_⟩ <;>
    · unfold storeTransition
      dsimp only
      rw [if_neg (by
        split <;>
          simp [bufAppendTransition_success _ obs act rew done _ _ _ hact])]
      first
      | rw [(storeDonePop_proj _ done an).1, (applyInfo_proj _ role info).1]
      | rw [(storeDonePop_proj _ done an).2.1, (applyInfo_proj _ role info).2.1]
      | rw [(storeDonePop_proj _ done an).2.2.1, (applyInfo_proj _ role info).2.2.1]
      | rw [(storeDonePop_proj _ done an).2.2.2.1, (applyInfo_proj _ role info).2.2.2.1]
      | rw [(storeDonePop_proj _ done an).2.2.2.2, (applyInfo_proj _ role info).2.2.2.2]
      by_cases hrole : role = "seeker" <;> simp [hrole]

lemma addTransition_noDone (olv : List ℚ → List ℚ → ℚ × ℚ) (vfn : List ℚ → ℚ)
    (s : TrainerState) (tr : TransIn) (hdone : tr.done = false)
    (hact : 2 ≤ tr.act.length) :
    addTransition olv vfn s tr.obs tr.act tr.rew tr.done tr.nextObs
        tr.agentName tr.info =
      (storeTransition olv vfn s (roleFromObs tr.obs) tr.obs tr.act tr.rew
        tr.done tr.nextObs tr.agentName tr.info).1 := by
  unfold addTransition
  dsimp only
  rw [(storeTransition_proj olv vfn s (roleFromObs tr.obs) tr.obs tr.act tr.rew
    tr.done tr.nextObs tr.agentName tr.info hact).1, hdone]
  simp

lemma runAdds_proj (olv : List ℚ → List ℚ → ℚ × ℚ) (vfn : List ℚ → ℚ)
    (role : String) :
    ∀ (trs : List TransIn) (s : TrainerState),
      (∀ tr ∈ trs, roleFromObs tr.obs = role ∧ tr.done = false ∧
        2 ≤ tr.act.length) →
      (runAdds olv vfn s trs).rows = s.rows ∧
      (runAdds olv vfn s trs).epSeekerRewards =
        (if role = "seeker" then s.epSeekerRewards ++ trs.map (fun tr => tr.rew)
          else s.epSeekerRewards) ∧
      (runAdds olv vfn s trs).epHiderRewards =
        (if role = "seeker" then s.epHiderRewards
          else s.epHiderRewards ++ trs.map (fun tr => tr.rew)) ∧
      (runAdds olv vfn s trs).epSeekerSteps =
        (if role = "seeker" then s.epSeekerSteps + trs.length
          else s.epSeekerSteps) ∧
      (runAdds olv vfn s trs).epHiderSteps =
        (if role = "seeker" then s.epHiderSteps
          else s.epHiderSteps + trs.length)
  | [], s, _ => by
    refine ⟨rfl, ?_, ?_, ?_, ?_⟩ <;> split <;> simp [runAdds]
  | tr :: trs, s, h => by
    obtain ⟨hrole', hdone, hact⟩ := h tr (List.mem_cons_self tr trs)
    have hstep := storeTransition_proj olv vfn s (roleFromObs tr.obs) tr.obs
      tr.act tr.rew tr.done tr.nextObs tr.agentName tr.info hact
    rw [hrole'] at hstep
    obtain ⟨-, hrows, hsr, hhr, hss, hhs⟩ := hstep
    have hrun : runAdds olv vfn s (tr :: trs) =
        runAdds olv vfn
          (storeTransition olv vfn s role tr.obs tr.act tr.rew tr.done
            tr.nextObs tr.agentName tr.info).1 trs := by
      unfold runAdds
      rw [List.foldl_cons]
      have := addTransition_noDone olv vfn s tr hdone hact
      rw [hrole'] at this
      rw [this]
    rw [hrun]
    obtain ⟨irows, isr, ihr, iss, ihs⟩ :=
      runAdds_proj olv vfn role trs
        (storeTransition olv vfn s role tr.obs tr.act tr.rew tr.done
          tr.nextObs tr.agentName tr.info).1
        (fun tr' htr' => h tr' (List.mem_cons_of_mem tr htr'))
    refine ⟨by rw [irows, hrows], ?_, ?_, ?_, ?_⟩ <;>
      by_cases hrole : role = "seeker"
    · rw [isr]; simp only [hrole, if_true, reduceIte] at hsr ⊢
      rw [hsr]; simp
    · rw [isr]; simp only [hrole, if_false, reduceIte] at hsr ⊢
      rw [hsr]
    · rw [ihr]; simp only [hrole, if_true, reduceIte] at hhr ⊢
      rw [hhr]
    · rw [ihr]; simp only [hrole, if_false, reduceIte] at hhr ⊢
      rw [hhr]; simp
    · rw [iss]; simp only [hrole, if_true, reduceIte] at hss ⊢
      rw [hss]; simp; omega
    · rw [iss]; simp only [hrole, if_false, reduceIte] at hss ⊢
      rw [hss]
    · rw [ihs]; simp only [hrole, if_true, reduceIte] at hhs ⊢
      rw [hhs]
    · rw [ihs]; simp only [hrole, if_false, reduceIte] at hhs ⊢
      rw [hhs]; simp; omega

lemma logEpisode_spec (s : TrainerState)
    (h : ¬ (s.epSeekerRewards.length + s.epHiderRewards.length = 0)) :
    (logEpisode s).rows = s.rows ++ [logRow s] ∧
    epStatsFresh (logEpisode s) ∧
    (logEpisode s).actCache = [] := by
  unfold logEpisode
  rw [if_neg h]
  exact ⟨rfl, ⟨rfl, rfl, rfl, rfl, rfl, rfl, rfl, rfl, rfl, rfl⟩, rfl⟩

/-- Claim C8: starting from freshly reset episode statistics, N stored
transitions all routed to a single role, where only the last is terminal,
produce exactly one appended metrics row on the resulting flush, with
`steps = N` and `reward_sum` the sum of the N rewards; afterwards all
episode statistics are reset and the action cache is cleared.  "Stored"
requires each action to carry its two planar components (the data model's
actions have three): a shorter action is not stored — its buffer append
raises IndexError before the statistics update. -/
theorem claim_C8_episode_flush (olv : List ℚ → List ℚ → ℚ × ℚ)
    (vfn : List ℚ → ℚ) (s : TrainerState) (role : String) (trs : List TransIn)
    (hfresh : epStatsFresh s)
    (hrole2 : role = "seeker" ∨ role = "hider")
    (hne : trs ≠ [])
    (hroles : ∀ tr ∈ trs, roleFromObs tr.obs = role)
    (hmid : ∀ tr ∈ trs.dropLast, tr.done = false)
    (hlast : ∀ tr, trs.getLast? = some tr → tr.done = true)
    (hacts : ∀ tr ∈ trs, 2 ≤ tr.act.length) :
    ∃ row : MetricsRow,
      (runAdds olv vfn s trs).rows = s.rows ++ [row] ∧
      row.steps = trs.length ∧
      row.rewardSum = (trs.map (fun tr => tr.rew)).sum ∧
      epStatsFresh (runAdds olv vfn s trs) ∧
      (runAdds olv vfn s trs).actCache = [] := by
  rcases List.eq_nil_or_concat trs with rfl | ⟨L, b, rfl⟩
  · exact absurd rfl hne
  rw [List.concat_eq_append] at *
  have hbdone : b.done = true := hlast b (by simp)
  have hLdone : ∀ tr ∈ L, tr.done = false := fun tr htr =>
    hmid tr (by rw [List.dropLast_concat]; exact htr)
  have hLrole : ∀ tr ∈ L, roleFromObs tr.obs = role := fun tr htr =>
    hroles tr (by simp [htr])
  have hbrole : roleFromObs b.obs = role := hroles b (by simp)
  have hbact : 2 ≤ b.act.length := hacts b (by simp)
  have hLact : ∀ tr ∈ L, 2 ≤ tr.act.length := fun tr htr =>
    hacts tr (by simp [htr])
  obtain ⟨prows, psr, phr, pss, phs⟩ :=
    runAdds_proj olv vfn role L s
      (fun tr htr => ⟨hLrole tr htr, hLdone tr htr, hLact tr htr⟩)
  have hstep := storeTransition_proj olv vfn (runAdds olv vfn s L)
    (roleFromObs b.obs) b.obs b.act b.rew b.done b.nextObs b.agentName b.info
    hbact
  rw [hbrole] at hstep
  obtain ⟨h2, hrows2, hsr2, hhr2, hss2, hhs2⟩ := hstep
  have hsplit : runAdds olv vfn s (L ++ [b]) =
      addTransition olv vfn (runAdds olv vfn s L) b.obs b.act b.rew b.done
        b.nextObs b.agentName b.info := by
    unfold runAdds
    rw [List.foldl_append]
    rfl
  have hadd : addTransition olv vfn (runAdds olv vfn s L) b.obs b.act b.rew
      b.done b.nextObs b.agentName b.info =
      logEpisode (storeTransition olv vfn (runAdds olv vfn s L) role b.obs
        b.act b.rew b.done b.nextObs b.agentName b.info).1 := by
    unfold addTransition
    dsimp only
    rw [hbrole, h2, hbdone]
    simp
  obtain ⟨f1, f2, f3, f4, -⟩ := hfresh
  rw [hsplit, hadd]
  rcases hrole2 with hr | hr
  · -- the single role is the seeker
    subst hr
    simp only [if_pos rfl] at psr phr pss phs hsr2 hhr2 hss2 hhs2
    rw [psr, f1] at hsr2
    rw [phr, f2] at hhr2
    rw [pss, f3] at hss2
    rw [phs, f4] at hhs2
    have htotal : ¬ ((storeTransition olv vfn (runAdds olv vfn s L) "seeker"
        b.obs b.act b.rew b.done b.nextObs b.agentName b.info).1.epSeekerRewards.length +
        (storeTransition olv vfn (runAdds olv vfn s L) "seeker" b.obs b.act
          b.rew b.done b.nextObs b.agentName b.info).1.epHiderRewards.length = 0) := by
      rw [hsr2, hhr2]
      simp
    obtain ⟨lrows, lfresh, lcache⟩ := logEpisode_spec _ htotal
    refine ⟨logRow _, by rw [lrows, hrows2, prows], ?_, ?_, lfresh, lcache⟩
    · show max _ _ = _
      rw [hss2, hhs2]
      simp
    · show _ + _ = _
      rw [hsr2, hhr2]
      simp
  · -- the single role is the hider
    subst hr
    have hner : ¬ (("hider" : String) = "seeker") := by decide
    simp only [if_neg hner, reduceIte] at psr phr pss phs hsr2 hhr2 hss2 hhs2
    rw [psr, f1] at hsr2
    rw [phr, f2] at hhr2
    rw [pss, f3] at hss2
    rw [phs, f4] at hhs2
    have htotal : ¬ ((storeTransition olv vfn (runAdds olv vfn s L) "hider"
        b.obs b.act b.rew b.done b.nextObs b.agentName b.info).1.epSeekerRewards.length +
        (storeTransition olv vfn (runAdds olv vfn s L) "hider" b.obs b.act
          b.rew b.done b.nextObs b.agentName b.info).1.epHiderRewards.length = 0) := by
      rw [hsr2, hhr2]
      simp
    obtain ⟨lrows, lfresh, lcache⟩ := logEpisode_spec _ htotal
    refine ⟨logRow _, by rw [lrows, hrows2, prows], ?_, ?_, lfresh, lcache⟩
    · show max _ _ = _
      rw [hss2, hhs2]
      simp
    · show _ + _ = _
      rw [hsr2, hhr2]
      simp

/-- A 9-feature observation whose flag feature routes to the seeker. -/
def demoObs : List ℚ := [0, 0, 0, 0, 0, 0, 0, 0, 1]

/-- A non-terminal seeker transition with reward 2. -/
def demoTr1 : TransIn := ⟨demoObs, [0, 0, 0], 2, false, none, "", none⟩

/-- A terminal seeker transition with reward 3. -/
def demoTr2 : TransIn := ⟨demoObs, [0, 0, 0], 3, true, none, "", none⟩

/-- Witness for C8: two seeker transitions ending in done produce exactly one
row with 2 steps and reward sum 5, with stats reset and cache cleared. -/
theorem claim_C8_episode_flush_witness :
    ∃ row : MetricsRow,
      (runAdds (fun _ _ => (0, 0)) (fun _ => 0) initialState
        [demoTr1, demoTr2]).rows = initialState.rows ++ [row] ∧
      row.steps = ([demoTr1, demoTr2] : List TransIn).length ∧
      row.rewardSum =
        (([demoTr1, demoTr2] : List TransIn).map (fun tr => tr.rew)).sum ∧
      epStatsFresh (runAdds (fun _ _ => (0, 0)) (fun _ => 0) initialState
        [demoTr1, demoTr2]) ∧
      (runAdds (fun _ _ => (0, 0)) (fun _ => 0) initialState
        [demoTr1, demoTr2]).actCache = [] :=
  claim_C8_episode_flush (fun _ _ => (0, 0)) (fun _ => 0) initialState
    "seeker" [demoTr1, demoTr2]
    (by decide) (Or.inl rfl) (by decide)
    (by
      intro tr htr
      have h2 : tr = demoTr1 ∨ tr = demoTr2 := by simpa using htr
      rcases h2 with rfl | rfl <;>
        · show roleFromObs demoObs = "seeker"
          rw [roleFromObs, dif_pos (by norm_num [demoObs])]
          norm_num [demoObs])
    (by decide)
    (fun tr htr => by rw [← Option.some.inj htr]; rfl)
    (by decide)

/-- Counterexample for C10: a `storeTransition` call with an empty action
list (reachable over the wire — the handlers only check
`isinstance(action, list)`) appends the observation at server.py line 421
and then raises IndexError at line 422, leaving the seeker buffer's `obs`
list longer than its `act` list: the parallel-lists equality holds before
the call and fails after it, so it is not preserved by every
`storeTransition` call. -/
theorem claim_C10_counterexample :
    bufferInvariant initialState.seekerBuf ∧
    ¬ bufferInvariant
      ((storeTransition (fun _ _ => (0, 0)) (fun _ => 0) initialState
        "seeker" [1] [] 2 false none "" none).1.seekerBuf) := by
  constructor
  · decide
  · decide

end TagTrainer
